import Mathlib

/-!
Verification of the json2ciw model compiler and replication pipeline.

This file gives a shallow embedding of the core of the `json2ciw`
repository (`json2ciw/engine.py` and `json2ciw/results.py`) and proves
properties about it.  Machine reals are modelled by `ℚ`; Python dicts
keyed by strings are association lists; code that can raise is modelled
with `Except String`.  The external discrete-event engine (the `ciw`
package) is out of scope of the repository and is modelled as an abstract
deterministic function from a seed and a runtime to a simulation output.
-/

/-- Resource attached to an activity.  Modelled from the spec: the
`schema` module defining the Pydantic models is not in the source tree;
fields follow §3 DATA MODEL and their uses in `engine.py`
(`act.resource.capacity`, `activity.resource.name`). -/
structure Resource where
  name : String
  capacity : Nat
  deriving DecidableEq

/-- Declarative distribution descriptor.  Modelled from the spec: `type`
is a tag string, `parameters` a mapping of named numeric fields
(`dist_obj.type`, `dist_obj.parameters` in `engine.py`). -/
structure DistributionDescriptor where
  type : String
  parameters : List (String × ℚ)
  deriving DecidableEq

/-- One activity of the process model.  Modelled from the spec: fields
follow §3 DATA MODEL and their uses in `engine.py` (`act.name`,
`act.service_distribution`, `act.arrival_distribution`, `act.resource`). -/
structure Activity where
  name : String
  service_distribution : DistributionDescriptor
  arrival_distribution : Option DistributionDescriptor
  resource : Resource
  deriving DecidableEq

/-- One routing transition.  Modelled from the spec: fields follow
§3 DATA MODEL and their uses in `engine.py` (`t.source`, `t.target`,
`t.probability`); target may be the sentinel string Exit. -/
structure Transition where
  source : String
  target : String
  probability : ℚ
  deriving DecidableEq

/-- The whole process model: ordered activities plus transitions. -/
structure ProcessModel where
  activities : List Activity
  transitions : List Transition
  deriving DecidableEq

/-- Engine-side distribution object, one constructor per `ciw.dists`
class used in `CiwConverter._make_ciw_dist`.  The argument of
`exponential` is exactly the value passed to `ciw.dists.Exponential`,
which ciw interprets as a rate. -/
inductive CiwDist where
  | exponential (rate : ℚ)
  | triangular (tmin tmode tmax : ℚ)
  | uniform (umin umax : ℚ)
  | deterministic (value : ℚ)
  deriving DecidableEq

/-- Looks up a named parameter, failing like Python `p[k]` (KeyError). -/
def pget (p : List (String × ℚ)) (k : String) : Except String ℚ :=
  match p.lookup k with
  | some v => .ok v
  | none => .error ("KeyError: " ++ k)

/-- Embedding of `CiwConverter._make_ciw_dist` (engine.py:68-82).  The
exponential branch passes `1/p["rate"]` to the engine constructor; a zero
rate raises, as Python division does. -/
def make_ciw_dist (d : DistributionDescriptor) : Except String CiwDist :=
  if d.type = "exponential" then
    match pget d.parameters ("rate") with
    | .error e => .error e
    | .ok r =>
      if r = 0 then .error ("ZeroDivisionError")
      else .ok (.exponential (1 / r))
  else if d.type = "triangular" then
    match pget d.parameters ("min"), pget d.parameters ("mode"),
        pget d.parameters ("max") with
    | .ok a, .ok m, .ok b => .ok (.triangular a m b)
    | .error e, _, _ => .error e
    | _, .error e, _ => .error e
    | _, _, .error e => .error e
  else if d.type = "uniform" then
    match pget d.parameters ("min"), pget d.parameters ("max") with
    | .ok a, .ok b => .ok (.uniform a b)
    | .error e, _ => .error e
    | _, .error e => .error e
  else if d.type = "deterministic" then
    match pget d.parameters ("value") with
    | .ok v => .ok (.deterministic v)
    | .error e => .error e
  else .error ("Unsupported distribution type for Ciw: " ++ d.type)

/-- Worker for `node_map`: folds over the activities with a running
index, the accumulator holding the current dict entry for `name`.  Later
entries overwrite earlier ones, exactly like the Python dict
comprehension. -/
def node_map_go (name : String) : Nat → Option Nat → List Activity → Option Nat
  | _, acc, [] => acc
  | i, acc, a :: l =>
    node_map_go name (i + 1) (if a.name = name then some i else acc) l

/-- Embedding of the dict `{act.name: i for i, act in enumerate(...)}`
(engine.py:20) as a lookup function. -/
def node_map (acts : List Activity) (name : String) : Option Nat :=
  node_map_go name 0 none acts

/-- An N×N matrix of zeros (engine.py:46). -/
def zeroMatrix (n : Nat) : List (List ℚ) :=
  List.replicate n (List.replicate n 0)

/-- Reads entry (i, j) of a row-major matrix, defaulting to 0. -/
def getEntry (M : List (List ℚ)) (i j : Nat) : ℚ :=
  (M.getD i []).getD j 0

/-- Writes entry (i, j) of a row-major matrix (engine.py:58). -/
def setEntry (M : List (List ℚ)) (i j : Nat) (p : ℚ) : List (List ℚ) :=
  M.set i ((M.getD i []).set j p)

/-- One iteration of the routing loop (engine.py:48-58): transitions to
Exit are skipped, unknown endpoints raise, otherwise the probability is
assigned at the resolved indices. -/
def routing_step (nm : String → Option Nat) (M : List (List ℚ))
    (t : Transition) : Except String (List (List ℚ)) :=
  if t.target = "Exit" then .ok M
  else
    match nm t.source, nm t.target with
    | some u, some v => .ok (setEntry M u v t.probability)
    | _, _ =>
      .error ("Transition references unknown node: " ++ t.source ++ " -> " ++ t.target)

/-- Folds `routing_step` over the transition list from a start matrix. -/
def build_routing_from (nm : String → Option Nat) (M : List (List ℚ)) :
    List Transition → Except String (List (List ℚ))
  | [] => .ok M
  | t :: ts =>
    match routing_step nm M t with
    | .ok M2 => build_routing_from nm M2 ts
    | .error e => .error e

/-- Embedding of the routing-matrix construction (engine.py:44-58). -/
def build_routing (acts : List Activity) (ts : List Transition) :
    Except String (List (List ℚ)) :=
  build_routing_from (node_map acts) (zeroMatrix acts.length) ts

/-- Maps a fallible function over a list, stopping at the first error,
like a Python loop of appends that can raise. -/
def mapExcept (f : α → Except String β) : List α → Except String (List β)
  | [] => .ok []
  | a :: l =>
    match f a with
    | .error e => .error e
    | .ok b =>
      match mapExcept f l with
      | .error e => .error e
      | .ok bs => .ok (b :: bs)

/-- Arrival branch of the activity loop (engine.py:37-42): a present
descriptor goes through the same `make_ciw_dist` helper as services, an
absent one becomes `None` (no external arrivals). -/
def make_arrival (a : Activity) : Except String (Option CiwDist) :=
  match a.arrival_distribution with
  | some d =>
    match make_ciw_dist d with
    | .ok c => .ok (some c)
    | .error e => .error e
  | none => .ok none

/-- The dictionary returned by `CiwConverter.generate_params`. -/
structure CiwParams where
  number_of_servers : List Nat
  arrival_distributions : List (Option CiwDist)
  service_distributions : List CiwDist
  routing : List (List ℚ)
  deriving DecidableEq

/-- Embedding of `CiwConverter.generate_params` (engine.py:11-66). -/
def generate_params (m : ProcessModel) : Except String CiwParams :=
  match mapExcept (fun a => make_ciw_dist a.service_distribution) m.activities with
  | .error e => .error e
  | .ok svc =>
    match mapExcept make_arrival m.activities with
    | .error e => .error e
    | .ok arr =>
      match build_routing m.activities m.transitions with
      | .error e => .error e
      | .ok routing =>
        .ok { number_of_servers := m.activities.map (fun a => a.resource.capacity)
              arrival_distributions := arr
              service_distributions := svc
              routing := routing }

/-- One completed-visit record as exposed by the engine
(`r.node`, `r.arrival_date`, `r.waiting_time`, `r.service_time`). -/
structure VisitRecord where
  node : Nat
  arrival_date : ℚ
  waiting_time : ℚ
  service_time : ℚ
  deriving DecidableEq

/-- What one simulation run exposes: `Q.get_all_records()` plus, for
each transitive node, its 1-based `id_number` and its engine-reported
`server_utilisation`. -/
structure SimOutput where
  records : List VisitRecord
  nodes : List (Nat × ℚ)
  deriving DecidableEq

/-- One row of the DataFrame built in `multiple_replications`. -/
structure Row where
  rep : Nat
  node_id : Nat
  activity_name : String
  resource_name : String
  resource_capacity : Nat
  arrivals : Nat
  mean_wait : ℚ
  mean_service : ℚ
  utilisation : ℚ
  mean_Lq : ℚ
  deriving DecidableEq

/-- Embedding of the `node_metadata` dict lookup (engine.py:156-163,
181): keys are `idx + 1` for each activity index, `.get` returns nothing
for other ids. -/
def node_meta (pm : ProcessModel) (node_id : Nat) : Option Activity :=
  if 1 ≤ node_id then pm.activities[node_id - 1]? else none

/-- Embedding of the warmup filter (engine.py:174-176): applied only
when `warmup > 0`, keeping records with `arrival_date >= warmup`. -/
def warmup_filter (warmup : ℚ) (recs : List VisitRecord) : List VisitRecord :=
  if 0 < warmup then recs.filter (fun r => warmup ≤ r.arrival_date) else recs

/-- Embedding of the per-node body of the replication loop
(engine.py:179-210): partition the (already warmup-filtered) records by
node id, take guarded arithmetic means, divide the total wait by the
horizon when it is positive, and resolve metadata with the Python
`.get` defaults. -/
def node_row (pm : ProcessModel) (rep : Nat) (runtime warmup : ℚ)
    (recs : List VisitRecord) (node_id : Nat) (util : ℚ) : Row :=
  let meta := node_meta pm node_id
  let node_recs := recs.filter (fun r => r.node = node_id)
  let waits := node_recs.map (fun r => r.waiting_time)
  let services := node_recs.map (fun r => r.service_time)
  let horizon := runtime - warmup
  { rep := rep
    node_id := node_id
    activity_name :=
      match meta with
      | some a => a.name
      | none => "Node " ++ toString node_id
    resource_name :=
      match meta with
      | some a => a.resource.name
      | none => "Unknown"
    resource_capacity :=
      match meta with
      | some a => a.resource.capacity
      | none => 0
    arrivals := node_recs.length
    mean_wait := if waits.length = 0 then 0 else waits.sum / (waits.length : ℚ)
    mean_service :=
      if services.length = 0 then 0 else services.sum / (services.length : ℚ)
    utilisation := util * 100
    mean_Lq := if 0 < horizon then waits.sum / horizon else 0 }

/-- The rows one replication appends (engine.py:172-210). -/
def replication_rows (pm : ProcessModel) (runtime warmup : ℚ) (rep : Nat)
    (out : SimOutput) : List Row :=
  let recs := warmup_filter warmup out.records
  out.nodes.map (fun p => node_row pm rep runtime warmup recs p.1 p.2)

/-- Embedding of `multiple_replications` (engine.py:84-212).  The
external ciw engine — `ciw.seed(rep)` followed by
`ciw.Simulation(network).simulate_until_max_time(runtime)` — is an
abstract function `engine` of the seed and the runtime, the network
being fixed inside it. -/
def multiple_replications (engine : Nat → ℚ → SimOutput) (pm : ProcessModel)
    (num_reps : Nat) (runtime warmup : ℚ) : List Row :=
  (List.range num_reps).flatMap
    (fun rep => replication_rows pm runtime warmup rep (engine rep runtime))

/-- Boolean order on char lists, used to model the lexicographic key
order of a pandas groupby. -/
def charListLE : List Char → List Char → Bool
  | [], _ => true
  | _ :: _, [] => false
  | a :: as, b :: bs =>
    if a.toNat < b.toNat then true
    else if b.toNat < a.toNat then false
    else charListLE as bs

/-- Lexicographic comparison of strings. -/
def strLE (a b : String) : Bool := charListLE a.data b.data

/-- Comparison of groupby keys `(activity_name, resource_name)`. -/
def keyLE (a b : String × String) : Bool :=
  if a.1 = b.1 then strLE a.2 b.2 else strLE a.1 b.1

/-- Sorted insertion for groupby keys. -/
def insertSorted (k : String × String) :
    List (String × String) → List (String × String)
  | [] => [k]
  | x :: xs => if keyLE k x then k :: x :: xs else x :: insertSorted k xs

/-- Insertion sort of groupby keys, modelling the sorted group order of
`df.groupby` in `summarise_results`. -/
def sortKeys : List (String × String) → List (String × String)
  | [] => []
  | x :: xs => insertSorted x (sortKeys xs)

/-- Groupby key of a row (results.py:37). -/
def rowKey (r : Row) : String × String := (r.activity_name, r.resource_name)

/-- The rows of one groupby group. -/
def groupOf (df : List Row) (k : String × String) : List Row :=
  df.filter (fun r => rowKey r = k)

/-- Arithmetic mean of a list of rationals; groups are never empty so
the zero default is unreachable in this development. -/
def qmean (xs : List ℚ) : ℚ :=
  if xs.length = 0 then 0 else xs.sum / (xs.length : ℚ)

/-- Column label (results.py:48-51). -/
def colLabel (include_resource : Bool) (k : String × String) : String :=
  if include_resource then k.1 ++ " (" ++ k.2 ++ ")" else k.1

/-- The default friendly metric names (results.py:24-30). -/
def DEFAULT_METRICS : List (String × String) :=
  [("mean_arrivals", "Mean arrivals"),
   ("mean_wait", "Mean waiting time"),
   ("mean_service", "Mean service time"),
   ("mean_utilisation", "Mean utilisation"),
   ("mean_Lq", "Mean queue length")]

/-- Dict lookup with a default, as pandas `rename` keeps labels missing
from the mapping. -/
def lookupD (m : List (String × String)) (k d : String) : String :=
  match m.lookup k with
  | some v => v
  | none => d

/-- The transposed summary: activity column labels and, per metric, its
name and one value per activity column. -/
structure SummaryTable where
  columns : List String
  metricRows : List (String × List ℚ)
  deriving DecidableEq

/-- Embedding of `summarise_results` (results.py:3-65): group by
`(activity_name, resource_name)` in sorted key order, aggregate each of
the five measures by mean, label the columns, transpose so metrics are
rows, and rename the metric index — with defaults when the mapping
argument is absent, and no rename at all when the mapping is empty
(`if metric_name_map:` is false on an empty dict). -/
def summarise_results (df_reps : List Row)
    (metric_name_map : Option (List (String × String)))
    (include_resource_in_colname : Bool) : SummaryTable :=
  let mmap := metric_name_map.getD DEFAULT_METRICS
  let keys := sortKeys (df_reps.map rowKey).dedup
  let cell := fun (f : Row → ℚ) =>
    keys.map (fun k => qmean ((groupOf df_reps k).map f))
  let base : List (String × List ℚ) :=
    [("mean_arrivals", cell (fun r => (r.arrivals : ℚ))),
     ("mean_wait", cell (fun r => r.mean_wait)),
     ("mean_service", cell (fun r => r.mean_service)),
     ("mean_utilisation", cell (fun r => r.utilisation)),
     ("mean_Lq", cell (fun r => r.mean_Lq))]
  { columns := keys.map (colLabel include_resource_in_colname)
    metricRows :=
      if mmap.isEmpty then base
      else base.map (fun p => (lookupD mmap p.1 p.1, p.2)) }

/-- A rolled-up inversion of `generate_params`: a successful compile
determines each returned field. -/
lemma generate_params_ok (m : ProcessModel) (ps : CiwParams)
    (h : generate_params m = .ok ps) :
    mapExcept (fun a => make_ciw_dist a.service_distribution) m.activities =
      .ok ps.service_distributions ∧
    mapExcept make_arrival m.activities = .ok ps.arrival_distributions ∧
    build_routing m.activities m.transitions = .ok ps.routing ∧
    ps.number_of_servers = m.activities.map (fun a => a.resource.capacity) := by
  unfold generate_params at h
  cases hsvc : mapExcept (fun a => make_ciw_dist a.service_distribution) m.activities with
  | error e => rw [hsvc] at h; cases h
  | ok svc =>
    rw [hsvc] at h
    cases harr : mapExcept make_arrival m.activities with
    | error e => rw [harr] at h; cases h
    | ok arr =>
      rw [harr] at h
      cases hrt : build_routing m.activities m.transitions with
      | error e => rw [hrt] at h; cases h
      | ok routing =>
        rw [hrt] at h
        cases h
        exact ⟨rfl, rfl, rfl, rfl⟩

/-- C1 counterexample: on the descriptor `exponential` with rate 2, the
factory hands the engine an exponential with rate 1/2, not 2 — the input
is inverted, i.e. treated as a mean. -/
theorem exponential_rate_not_used_directly :
    make_ciw_dist ⟨"exponential", [("rate", 2)]⟩ = .ok (.exponential (1 / 2)) ∧
    make_ciw_dist ⟨"exponential", [("rate", 2)]⟩ ≠ .ok (.exponential 2) := by
  have h1 : make_ciw_dist ⟨"exponential", [("rate", 2)]⟩ =
      .ok (.exponential (1 / 2)) := rfl
  refine ⟨h1, ?_⟩
  rw [h1]
  simp only [ne_eq, Except.ok.injEq, CiwDist.exponential.injEq]
  norm_num

/-- C1 (amended): for an exponential descriptor with nonzero rate r the
factory returns an engine exponential with rate 1/r (the input is
treated as a mean), and this single helper is what compilation uses for
both the service list and the arrival list, so the convention is
uniform. -/
theorem exponential_uses_reciprocal_rate_uniformly
    (d : DistributionDescriptor) (r : ℚ) (m : ProcessModel) (ps : CiwParams)
    (htype : d.type = "exponential") (hr : pget d.parameters ("rate") = .ok r)
    (hnz : r ≠ 0) (hok : generate_params m = .ok ps) :
    make_ciw_dist d = .ok (.exponential (1 / r)) ∧
    mapExcept (fun a => make_ciw_dist a.service_distribution) m.activities =
      .ok ps.service_distributions ∧
    mapExcept make_arrival m.activities = .ok ps.arrival_distributions := by
  obtain ⟨hsvc, harr, _, _⟩ := generate_params_ok m ps hok
  refine ⟨?_, hsvc, harr⟩
  simp [make_ciw_dist, htype, hr, hnz]

/-- C1 witness: instance of the amended theorem at rate 2 and the empty
model. -/
theorem exponential_uses_reciprocal_rate_uniformly_witness :
    make_ciw_dist ⟨"exponential", [("rate", 2)]⟩ = .ok (.exponential (1 / 2)) ∧
    mapExcept (fun a => make_ciw_dist a.service_distribution)
      (ProcessModel.mk [] []).activities =
      .ok (CiwParams.mk [] [] [] []).service_distributions ∧
    mapExcept make_arrival (ProcessModel.mk [] []).activities =
      .ok (CiwParams.mk [] [] [] []).arrival_distributions :=
  exponential_uses_reciprocal_rate_uniformly
    ⟨"exponential", [("rate", 2)]⟩ 2 (ProcessModel.mk [] [])
    (CiwParams.mk [] [] [] []) rfl rfl (by norm_num) rfl

/-- A process model with two activities that share the name A. -/
def pmDup : ProcessModel :=
  ⟨[⟨"A", ⟨"deterministic", [("value", 1)]⟩, none, ⟨"R1", 1⟩⟩,
    ⟨"A", ⟨"deterministic", [("value", 2)]⟩, none, ⟨"R2", 3⟩⟩], []⟩

/-- C2 counterexample: on a model with two activities both named A,
`generate_params` does not fail at all — it silently returns a complete
parameter set. -/
theorem duplicate_names_silently_collapse :
    pmDup.activities.map (fun a => a.name) = ["A", "A"] ∧
    generate_params pmDup = .ok
      { number_of_servers := [1, 3]
        arrival_distributions := [none, none]
        service_distributions := [.deterministic 1, .deterministic 2]
        routing := [[0, 0], [0, 0]] } :=
  ⟨rfl, rfl⟩

/-- Appending an activity updates the running dict at its name with the
next index, whatever was there before. -/
lemma node_map_go_append (s : String) (i : Nat) (acc : Option Nat)
    (l : List Activity) (a : Activity) :
    node_map_go s i acc (l ++ [a]) =
      if a.name = s then some (i + l.length) else node_map_go s i acc l := by
  induction l generalizing i acc with
  | nil => simp [node_map_go]
  | cons b l ih =>
    have hstep : node_map_go s i acc ((b :: l) ++ [a]) =
        node_map_go s (i + 1) (if b.name = s then some i else acc) (l ++ [a]) := rfl
    rw [hstep, ih]
    rcases eq_or_ne a.name s with ha | ha
    · rw [if_pos ha, if_pos ha, List.length_cons]
      have h : i + 1 + l.length = i + (l.length + 1) := by omega
      rw [h]
    · rw [if_neg ha, if_neg ha]
      rfl

/-- C2 (amended): compilation does not detect duplicate activity names;
the name-to-index dict is built last-write-wins, so an activity appended
to the list overrides the entry at its name with the new (largest)
index. -/
theorem node_map_last_write_wins (acts : List Activity) (a : Activity)
    (s : String) :
    node_map (acts ++ [a]) s =
      if a.name = s then some acts.length else node_map acts s := by
  simp [node_map, node_map_go_append]

/-- C3: the reported mean queue length of every emitted row is the sum
of the warmup-filtered waiting times of its node divided by the horizon
T − warmup when that is positive, and the guarded branch returns 0 when
T ≤ warmup, so no division by zero occurs. -/
theorem mean_Lq_guarded (pm : ProcessModel) (T W : ℚ) (rep : Nat)
    (out : SimOutput) (row : Row)
    (hrow : row ∈ replication_rows pm T W rep out) :
    (W < T → row.mean_Lq =
      (((warmup_filter W out.records).filter
          (fun r => r.node = row.node_id)).map
        (fun r => r.waiting_time)).sum / (T - W)) ∧
    (T ≤ W → row.mean_Lq = 0) := by
  unfold replication_rows at hrow
  rw [List.mem_map] at hrow
  obtain ⟨p, hp, rfl⟩ := hrow
  constructor
  · intro hWT
    have h0 : (0 : ℚ) < T - W := by linarith
    simp [node_row, h0]
  · intro hTW
    have h0 : ¬ (0 : ℚ) < T - W := by linarith
    simp [node_row, h0]

/-- A one-activity model used to instantiate runner theorems. -/
def sampleModel : ProcessModel :=
  ⟨[⟨"A", ⟨"deterministic", [("value", 1)]⟩, none, ⟨"R", 1⟩⟩], []⟩

/-- A simulation output with one record at node 1. -/
def sampleOut : SimOutput := ⟨[⟨1, 5, 2, 3⟩], [(1, 1 / 2)]⟩

/-- The row the runner emits for `sampleOut` at T = 10, warmup = 1. -/
def sampleRow : Row :=
  node_row sampleModel 0 10 1 (warmup_filter 1 sampleOut.records) 1 (1 / 2)

/-- C3 witness: the guarded mean queue length evaluated on a concrete
one-record run. -/
theorem mean_Lq_guarded_witness :
    ((1 : ℚ) < 10 → sampleRow.mean_Lq =
      (((warmup_filter 1 sampleOut.records).filter
          (fun r => r.node = sampleRow.node_id)).map
        (fun r => r.waiting_time)).sum / (10 - 1)) ∧
    ((10 : ℚ) ≤ 1 → sampleRow.mean_Lq = 0) :=
  mean_Lq_guarded sampleModel 10 1 0 sampleOut sampleRow
    (by rw [show replication_rows sampleModel 10 1 0 sampleOut = [sampleRow] from rfl]
        exact List.mem_singleton_self _)

/-- C7: a node whose warmup-filtered record list is empty gets
mean_wait = 0 and mean_service = 0; no error is possible since the
means are guarded. -/
theorem zero_record_means_are_zero (pm : ProcessModel) (T W : ℚ)
    (rep : Nat) (out : SimOutput) (row : Row)
    (hrow : row ∈ replication_rows pm T W rep out)
    (hempty : (warmup_filter W out.records).filter
        (fun r => r.node = row.node_id) = []) :
    row.mean_wait = 0 ∧ row.mean_service = 0 := by
  unfold replication_rows at hrow
  rw [List.mem_map] at hrow
  obtain ⟨p, hp, rfl⟩ := hrow
  have h2 : (warmup_filter W out.records).filter
      (fun r => r.node = p.1) = [] := hempty
  constructor
  · show (if (((warmup_filter W out.records).filter
        (fun r => r.node = p.1)).map
        (fun r => r.waiting_time)).length = 0 then (0 : ℚ) else _) = 0
    rw [h2]
    rfl
  · show (if (((warmup_filter W out.records).filter
        (fun r => r.node = p.1)).map
        (fun r => r.service_time)).length = 0 then (0 : ℚ) else _) = 0
    rw [h2]
    rfl

/-- A simulation output with no completed records for node 1. -/
def sampleOutEmpty : SimOutput := ⟨[], [(1, 1 / 4)]⟩

/-- The row the runner emits for `sampleOutEmpty` at T = 10, warmup = 0. -/
def sampleRowEmpty : Row :=
  node_row sampleModel 0 10 0 (warmup_filter 0 sampleOutEmpty.records) 1 (1 / 4)

/-- C7 witness: a node with zero completed visits yields zero means. -/
theorem zero_record_means_are_zero_witness :
    sampleRowEmpty.mean_wait = 0 ∧ sampleRowEmpty.mean_service = 0 :=
  zero_record_means_are_zero sampleModel 10 0 0 sampleOutEmpty sampleRowEmpty
    (by rw [show replication_rows sampleModel 10 0 0 sampleOutEmpty =
          [sampleRowEmpty] from rfl]
        exact List.mem_singleton_self _) rfl

/-- C8: an absent metric-name mapping applies the five default friendly
labels, while an explicitly empty mapping keeps the five raw internal
names; both calls return normally on any input frame. -/
theorem metric_name_map_none_vs_empty (df : List Row) (incl : Bool) :
    (summarise_results df none incl).metricRows.map Prod.fst =
      ["Mean arrivals", "Mean waiting time", "Mean service time",
       "Mean utilisation", "Mean queue length"] ∧
    (summarise_results df (some []) incl).metricRows.map Prod.fst =
      ["mean_arrivals", "mean_wait", "mean_service", "mean_utilisation",
       "mean_Lq"] :=
  ⟨rfl, rfl⟩

/-- Bridges `List.getD` to the `getElem?` world. -/
lemma getD_eq_getElem?_getD {α : Type} (l : List α) (n : Nat) (d : α) :
    l.getD n d = (l[n]?).getD d := by
  rw [List.getD_eq_getD_get?, List.get?_eq_getElem?]

/-- Reading back an in-range write to a list returns the written value. -/
lemma getElem?_set_lt {α : Type} (l : List α) (n : Nat) (a : α)
    (h : n < l.length) : (l.set n a)[n]? = some a := by
  simp [List.getElem?_set_self', List.getElem?_eq_getElem h]

/-- Every entry of the all-zero routing matrix is zero. -/
lemma getEntry_zeroMatrix (n i j : Nat) : getEntry (zeroMatrix n) i j = 0 := by
  unfold getEntry zeroMatrix
  rcases Nat.lt_or_ge i n with h | h
  · have houter : (List.replicate n (List.replicate n (0 : ℚ))).getD i [] =
        List.replicate n 0 := by
      rw [List.getD_eq_getElem _ _ (by simpa using h), List.getElem_replicate]
    rw [houter, getD_eq_getElem?_getD]
    exact List.getElem?_getD_replicate_default_eq _ _ _
  · have houter : (List.replicate n (List.replicate n (0 : ℚ))).getD i [] =
        [] := by
      rw [List.getD_eq_default _ _ (by simpa using h)]
    rw [houter]
    rfl

/-- Writing a matrix entry in range puts the value at that entry. -/
lemma getEntry_setEntry_self (M : List (List ℚ)) (u v : Nat) (p : ℚ)
    (hu : u < M.length) (hv : v < (M.getD u []).length) :
    getEntry (setEntry M u v p) u v = p := by
  unfold getEntry setEntry
  have houter : (M.set u ((M.getD u []).set v p)).getD u [] =
      (M.getD u []).set v p := by
    rw [getD_eq_getElem?_getD, getElem?_set_lt _ _ _ hu, Option.getD_some]
  rw [houter, getD_eq_getElem?_getD, getElem?_set_lt _ _ _ hv, Option.getD_some]

/-- Writing a matrix entry leaves every other entry unchanged. -/
lemma getEntry_setEntry_ne (M : List (List ℚ)) (u v : Nat) (p : ℚ) (i j : Nat)
    (h : ¬(i = u ∧ j = v)) :
    getEntry (setEntry M u v p) i j = getEntry M i j := by
  unfold getEntry setEntry
  rcases eq_or_ne i u with rfl | hiu
  · have hjv : j ≠ v := fun hj => h ⟨rfl, hj⟩
    rcases Nat.lt_or_ge i M.length with hl | hl
    · have houter : (M.set i ((M.getD i []).set v p)).getD i [] =
          (M.getD i []).set v p := by
        rw [getD_eq_getElem?_getD, getElem?_set_lt _ _ _ hl, Option.getD_some]
      rw [houter]
      rw [getD_eq_getElem?_getD, List.getElem?_set_ne (Ne.symm hjv),
        ← getD_eq_getElem?_getD]
    · have houter : (M.set i ((M.getD i []).set v p)).getD i [] =
          M.getD i [] := by
        rw [getD_eq_getElem?_getD, List.getElem?_set_self',
          List.getElem?_eq_none hl, getD_eq_getElem?_getD M,
          List.getElem?_eq_none hl]
        rfl
      rw [houter]
  · have houter : (M.set u ((M.getD u []).set v p)).getD i [] =
        M.getD i [] := by
      rw [getD_eq_getElem?_getD, List.getElem?_set_ne (Ne.symm hiu),
        ← getD_eq_getElem?_getD]
    rw [houter]

/-- A fold step over an appended transition acts on the fold of the
prefix, errors propagating. -/
lemma build_routing_from_append (nm : String → Option Nat)
    (M : List (List ℚ)) (ts : List Transition) (t : Transition) :
    build_routing_from nm M (ts ++ [t]) =
      match build_routing_from nm M ts with
      | .ok M2 => routing_step nm M2 t
      | .error e => .error e := by
  induction ts generalizing M with
  | nil =>
    show build_routing_from nm M [t] = routing_step nm M t
    cases h : routing_step nm M t with
    | ok M2 => simp [build_routing_from, h]
    | error e => simp [build_routing_from, h]
  | cons s ts ih =>
    cases h : routing_step nm M s with
    | ok M2 => simp [build_routing_from, h, ih]
    | error e => simp [build_routing_from, h]

/-- C5: the routing matrix starts as N×N zeros; appending a transition
to the compile leaves the matrix unchanged when its target is Exit,
raises when a non-Exit transition names an unknown endpoint, and
otherwise overwrites exactly the (source, target) entry with the new
probability, every other entry keeping its previous value. -/
theorem routing_matrix_construction
    (acts : List Activity) (ts : List Transition) (t : Transition)
    (M : List (List ℚ)) (hok : build_routing acts ts = .ok M) :
    (build_routing acts [] = .ok (zeroMatrix acts.length) ∧
      ∀ i j, getEntry (zeroMatrix acts.length) i j = 0) ∧
    (t.target = "Exit" → build_routing acts (ts ++ [t]) = .ok M) ∧
    (t.target ≠ "Exit" →
      (node_map acts t.source = none ∨ node_map acts t.target = none) →
      ∃ e, build_routing acts (ts ++ [t]) = .error e) ∧
    (∀ u v, t.target ≠ "Exit" → node_map acts t.source = some u →
      node_map acts t.target = some v →
      build_routing acts (ts ++ [t]) = .ok (setEntry M u v t.probability) ∧
      (u < M.length → v < (M.getD u []).length →
        getEntry (setEntry M u v t.probability) u v = t.probability) ∧
      (∀ i j, ¬(i = u ∧ j = v) →
        getEntry (setEntry M u v t.probability) i j = getEntry M i j)) := by
  have happ : build_routing acts (ts ++ [t]) =
      routing_step (node_map acts) M t := by
    unfold build_routing at hok ⊢
    rw [build_routing_from_append, hok]
  refine ⟨⟨rfl, fun i j => getEntry_zeroMatrix acts.length i j⟩, ?_, ?_, ?_⟩
  · intro hex
    rw [happ]
    simp [routing_step, hex]
  · intro hex hnone
    rw [happ]
    unfold routing_step
    rw [if_neg hex]
    cases hs : node_map acts t.source with
    | none =>
      cases ht : node_map acts t.target with
      | none => exact ⟨_, rfl⟩
      | some v => exact ⟨_, rfl⟩
    | some u =>
      cases ht : node_map acts t.target with
      | none => exact ⟨_, rfl⟩
      | some v =>
        rcases hnone with hcon | hcon
        · rw [hs] at hcon
          cases hcon
        · rw [ht] at hcon
          cases hcon
  · intro u v hex hsl htl
    have hstep : routing_step (node_map acts) M t =
        .ok (setEntry M u v t.probability) := by
      unfold routing_step
      rw [if_neg hex, hsl, htl]
    refine ⟨by rw [happ, hstep], ?_, ?_⟩
    · intro hu hv
      exact getEntry_setEntry_self M u v t.probability hu hv
    · intro i j hij
      exact getEntry_setEntry_ne M u v t.probability i j hij

/-- A two-activity model A, B with no transitions yet. -/
def actsC5 : List Activity :=
  [⟨"A", ⟨"deterministic", [("value", 1)]⟩, none, ⟨"R1", 1⟩⟩,
   ⟨"B", ⟨"deterministic", [("value", 2)]⟩, none, ⟨"R2", 1⟩⟩]

/-- A transition A to B with probability 1/2. -/
def tC5 : Transition := ⟨"A", "B", 1 / 2⟩

/-- C5 witness: the construction theorem instantiated at the empty
prefix of a two-node model. -/
theorem routing_matrix_construction_witness :
    (build_routing actsC5 [] = .ok (zeroMatrix actsC5.length) ∧
      ∀ i j, getEntry (zeroMatrix actsC5.length) i j = 0) ∧
    (tC5.target = "Exit" →
      build_routing actsC5 ([] ++ [tC5]) = .ok (zeroMatrix actsC5.length)) ∧
    (tC5.target ≠ "Exit" →
      (node_map actsC5 tC5.source = none ∨ node_map actsC5 tC5.target = none) →
      ∃ e, build_routing actsC5 ([] ++ [tC5]) = .error e) ∧
    (∀ u v, tC5.target ≠ "Exit" → node_map actsC5 tC5.source = some u →
      node_map actsC5 tC5.target = some v →
      build_routing actsC5 ([] ++ [tC5]) =
        .ok (setEntry (zeroMatrix actsC5.length) u v tC5.probability) ∧
      (u < (zeroMatrix actsC5.length).length →
        v < ((zeroMatrix actsC5.length).getD u []).length →
        getEntry (setEntry (zeroMatrix actsC5.length) u v tC5.probability) u v =
          tC5.probability) ∧
      (∀ i j, ¬(i = u ∧ j = v) →
        getEntry (setEntry (zeroMatrix actsC5.length) u v tC5.probability) i j =
          getEntry (zeroMatrix actsC5.length) i j)) :=
  routing_matrix_construction actsC5 [] tC5 (zeroMatrix actsC5.length) rfl

/-- Lists flat-mapped by pointwise-equal functions are equal. -/
lemma flatMap_congr {α β : Type} (l : List α) (f g : α → List β)
    (h : ∀ x ∈ l, f x = g x) : l.flatMap f = l.flatMap g := by
  induction l with
  | nil => rfl
  | cons a l ih =>
    show f a ++ l.flatMap f = g a ++ l.flatMap g
    rw [h a (List.mem_cons_self a l),
      ih (fun x hx => h x (List.mem_cons_of_mem a hx))]

/-- C6: the replication runner is deterministic — its output is a pure
function of the engine responses at seeds 0..R−1 and the fixed inputs,
because replication rep seeds the engine with rep itself; two engines
that agree on those seeds at the given runtime produce identical row
sequences. -/
theorem multiple_replications_deterministic
    (e1 e2 : Nat → ℚ → SimOutput) (pm : ProcessModel) (R : Nat) (T W : ℚ)
    (h : ∀ s < R, e1 s T = e2 s T) :
    multiple_replications e1 pm R T W = multiple_replications e2 pm R T W := by
  unfold multiple_replications
  apply flatMap_congr
  intro rep hrep
  rw [h rep (List.mem_range.mp hrep)]

/-- An engine that differs from the constant one only at seeds ≥ 2. -/
def engineA : Nat → ℚ → SimOutput :=
  fun s _ => if s < 2 then sampleOut else sampleOutEmpty

/-- The constant engine. -/
def engineB : Nat → ℚ → SimOutput := fun _ _ => sampleOut

/-- C6 witness: two engines that agree on seeds 0 and 1 give identical
two-replication runs. -/
theorem multiple_replications_deterministic_witness :
    multiple_replications engineA sampleModel 2 10 1 =
      multiple_replications engineB sampleModel 2 10 1 :=
  multiple_replications_deterministic engineA engineB sampleModel 2 10 1
    (fun s hs => by simp [engineA, engineB, hs])

/-- The row the runner emits for `sampleOut` when the warmup equals the
whole horizon. -/
def rowC4 : Row :=
  node_row sampleModel 0 10 10 (warmup_filter 10 sampleOut.records) 1 (1 / 2)

/-- C4 counterexample: with warmup = T = 10 the observation window is
empty and the four record-based metrics are zero, yet the reported
utilisation is the engine's full-run busy fraction (50), not a
zero-record default — the warmup filter never touches it. -/
theorem utilisation_not_warmup_filtered :
    replication_rows sampleModel 10 10 0 sampleOut = [rowC4] ∧
    rowC4.arrivals = 0 ∧ rowC4.mean_wait = 0 ∧ rowC4.mean_service = 0 ∧
    rowC4.mean_Lq = 0 ∧ rowC4.utilisation = 50 ∧ rowC4.utilisation ≠ 0 := by
  have hfilter : warmup_filter 10 sampleOut.records = [] := by
    unfold warmup_filter sampleOut
    rw [if_pos (by norm_num)]
    simp only [List.filter_cons, List.filter_nil, decide_eq_true_eq]
    norm_num
  have hrow : rowC4 = node_row sampleModel 0 10 10 [] 1 (1 / 2) := by
    unfold rowC4
    rw [hfilter]
  refine ⟨rfl, ?_, ?_, ?_, ?_, ?_, ?_⟩
  · rw [hrow]; rfl
  · rw [hrow]; rfl
  · rw [hrow]; rfl
  · rw [hrow]; norm_num [node_row]
  · rw [hrow]; norm_num [node_row]
  · rw [hrow]; norm_num [node_row]

/-- C4 (amended): when warmup > 0, a record arriving before the warmup
is excluded from the four record-based metrics (appending it changes no
row), and once every record falls before the warmup those four metrics
take their zero defaults — but utilisation still reports the engine's
full-run busy fraction times 100, untouched by the filter. -/
theorem warmup_excludes_records_from_record_metrics
    (pm : ProcessModel) (T W : ℚ) (rep : Nat) (out : SimOutput)
    (hW : 0 < W) :
    (∀ r2 : VisitRecord, r2.arrival_date < W →
      replication_rows pm T W rep ⟨out.records ++ [r2], out.nodes⟩ =
        replication_rows pm T W rep out) ∧
    ((∀ r2 ∈ out.records, r2.arrival_date < W) →
      ∀ row ∈ replication_rows pm T W rep out,
        row.arrivals = 0 ∧ row.mean_wait = 0 ∧ row.mean_service = 0 ∧
        row.mean_Lq = 0 ∧
        ∃ p ∈ out.nodes, row.node_id = p.1 ∧ row.utilisation = p.2 * 100) := by
  constructor
  · intro r2 hr2
    have hf : warmup_filter W (out.records ++ [r2]) =
        warmup_filter W out.records := by
      unfold warmup_filter
      rw [if_pos hW, if_pos hW, List.filter_append]
      have hone : List.filter (fun r => decide (W ≤ r.arrival_date)) [r2] =
          [] := by
        simp only [List.filter_cons, List.filter_nil, decide_eq_true_eq]
        rw [if_neg (not_le.mpr hr2)]
      rw [hone, List.append_nil]
    show out.nodes.map (fun p =>
        node_row pm rep T W (warmup_filter W (out.records ++ [r2])) p.1 p.2) =
      out.nodes.map (fun p =>
        node_row pm rep T W (warmup_filter W out.records) p.1 p.2)
    rw [hf]
  · intro hall row hrow
    have hf : warmup_filter W out.records = [] := by
      unfold warmup_filter
      rw [if_pos hW, List.filter_eq_nil_iff]
      intro a ha
      simp only [decide_eq_true_eq]
      exact not_le.mpr (hall a ha)
    unfold replication_rows at hrow
    rw [List.mem_map] at hrow
    obtain ⟨p, hp, rfl⟩ := hrow
    have hrw : node_row pm rep T W (warmup_filter W out.records) p.1 p.2 =
        node_row pm rep T W [] p.1 p.2 := by rw [hf]
    rw [hrw]
    refine ⟨rfl, rfl, rfl, ?_, ⟨p, hp, rfl, rfl⟩⟩
    show (if 0 < T - W then
        ((([] : List VisitRecord).filter (fun r => r.node = p.1)).map
          (fun r => r.waiting_time)).sum / (T - W)
      else 0) = 0
    split
    · exact zero_div _
    · rfl

/-- C4 witness: the amended theorem at the concrete empty-window run. -/
theorem warmup_excludes_records_witness :
    (∀ r2 : VisitRecord, r2.arrival_date < 10 →
      replication_rows sampleModel 10 10 0
          ⟨sampleOut.records ++ [r2], sampleOut.nodes⟩ =
        replication_rows sampleModel 10 10 0 sampleOut) ∧
    ((∀ r2 ∈ sampleOut.records, r2.arrival_date < 10) →
      ∀ row ∈ replication_rows sampleModel 10 10 0 sampleOut,
        row.arrivals = 0 ∧ row.mean_wait = 0 ∧ row.mean_service = 0 ∧
        row.mean_Lq = 0 ∧
        ∃ p ∈ sampleOut.nodes, row.node_id = p.1 ∧
          row.utilisation = p.2 * 100) :=
  warmup_excludes_records_from_record_metrics sampleModel 10 10 0 sampleOut
    (by norm_num)

/-- C10: a node id outside the 1-based activity range still gets a row,
with placeholder metadata — name Node id, resource Unknown, capacity
0 — while its numeric metrics are the same record-based formulas as for
known nodes; the runner does not fail. -/
theorem unknown_node_placeholder_row
    (pm : ProcessModel) (T W : ℚ) (rep nid : Nat) (util : ℚ)
    (out : SimOutput) (hmem : (nid, util) ∈ out.nodes)
    (hid : pm.activities.length < nid ∨ nid = 0) :
    node_row pm rep T W (warmup_filter W out.records) nid util ∈
      replication_rows pm T W rep out ∧
    (node_row pm rep T W (warmup_filter W out.records) nid util).activity_name =
      "Node " ++ toString nid ∧
    (node_row pm rep T W (warmup_filter W out.records) nid util).resource_name =
      "Unknown" ∧
    (node_row pm rep T W (warmup_filter W out.records) nid util).resource_capacity =
      0 ∧
    (node_row pm rep T W (warmup_filter W out.records) nid util).arrivals =
      ((warmup_filter W out.records).filter (fun r => r.node = nid)).length ∧
    (node_row pm rep T W (warmup_filter W out.records) nid util).utilisation =
      util * 100 ∧
    (node_row pm rep T W (warmup_filter W out.records) nid util).mean_Lq =
      (if 0 < T - W then
        (((warmup_filter W out.records).filter (fun r => r.node = nid)).map
          (fun r => r.waiting_time)).sum / (T - W)
      else 0) := by
  have hmeta : node_meta pm nid = none := by
    rcases hid with h | h
    · unfold node_meta
      rw [if_pos (by omega)]
      exact List.getElem?_eq_none (by omega)
    · subst h
      rfl
  refine ⟨?_, ?_, ?_, ?_, rfl, rfl, rfl⟩
  · show node_row pm rep T W (warmup_filter W out.records) nid util ∈
      out.nodes.map (fun p =>
        node_row pm rep T W (warmup_filter W out.records) p.1 p.2)
    exact List.mem_map.mpr ⟨(nid, util), hmem, rfl⟩
  · show (match node_meta pm nid with
      | some a => a.name
      | none => "Node " ++ toString nid) = "Node " ++ toString nid
    rw [hmeta]
  · show (match node_meta pm nid with
      | some a => a.resource.name
      | none => "Unknown") = "Unknown"
    rw [hmeta]
  · show (match node_meta pm nid with
      | some a => a.resource.capacity
      | none => 0) = 0
    rw [hmeta]

/-- A run whose only transitive node has id 2, outside the one-activity
model. -/
def outC10 : SimOutput := ⟨[⟨2, 0, 1, 1⟩], [(2, 1 / 2)]⟩

/-- C10 witness: the placeholder row for node 2 of a one-activity
model. -/
theorem unknown_node_placeholder_row_witness :
    node_row sampleModel 0 10 0 (warmup_filter 0 outC10.records) 2 (1 / 2) ∈
      replication_rows sampleModel 10 0 0 outC10 ∧
    (node_row sampleModel 0 10 0
        (warmup_filter 0 outC10.records) 2 (1 / 2)).activity_name =
      "Node " ++ toString 2 ∧
    (node_row sampleModel 0 10 0
        (warmup_filter 0 outC10.records) 2 (1 / 2)).resource_name =
      "Unknown" ∧
    (node_row sampleModel 0 10 0
        (warmup_filter 0 outC10.records) 2 (1 / 2)).resource_capacity = 0 ∧
    (node_row sampleModel 0 10 0
        (warmup_filter 0 outC10.records) 2 (1 / 2)).arrivals =
      ((warmup_filter 0 outC10.records).filter (fun r => r.node = 2)).length ∧
    (node_row sampleModel 0 10 0
        (warmup_filter 0 outC10.records) 2 (1 / 2)).utilisation =
      (1 / 2 : ℚ) * 100 ∧
    (node_row sampleModel 0 10 0
        (warmup_filter 0 outC10.records) 2 (1 / 2)).mean_Lq =
      (if 0 < (10 : ℚ) - 0 then
        (((warmup_filter 0 outC10.records).filter (fun r => r.node = 2)).map
          (fun r => r.waiting_time)).sum / ((10 : ℚ) - 0)
      else 0) :=
  unknown_node_placeholder_row sampleModel 10 0 0 2 (1 / 2) outC10
    (List.mem_singleton_self _) (Or.inl (by decide))

/-- Sorted insertion grows the key list by one. -/
lemma length_insertSorted (k : String × String)
    (l : List (String × String)) :
    (insertSorted k l).length = l.length + 1 := by
  induction l with
  | nil => rfl
  | cons x xs ih =>
    unfold insertSorted
    split
    · rfl
    · simp [ih]

/-- Sorting the keys preserves their number. -/
lemma length_sortKeys (l : List (String × String)) :
    (sortKeys l).length = l.length := by
  induction l with
  | nil => rfl
  | cons x xs ih =>
    unfold sortKeys
    rw [length_insertSorted, ih, List.length_cons]

/-- Membership in a sorted insertion. -/
lemma mem_insertSorted (k x : String × String) (l : List (String × String)) :
    x ∈ insertSorted k l ↔ x = k ∨ x ∈ l := by
  induction l with
  | nil => simp [insertSorted]
  | cons y ys ih =>
    unfold insertSorted
    split
    · simp [List.mem_cons]
    · simp only [List.mem_cons, ih]
      tauto

/-- Sorting the keys preserves membership. -/
lemma mem_sortKeys (x : String × String) (l : List (String × String)) :
    x ∈ sortKeys l ↔ x ∈ l := by
  induction l with
  | nil => simp [sortKeys]
  | cons y ys ih =>
    unfold sortKeys
    rw [mem_insertSorted]
    simp [ih]

/-- C9: on a frame whose every group (one per distinct activity and
resource pair) holds exactly R rows, the summary has exactly 5 metric
rows and one column per distinct pair, and every cell is the arithmetic
mean — the sum divided by R — of that group's R values for that
metric. -/
theorem summary_shape_and_cell_means
    (df : List Row) (m : Option (List (String × String))) (incl : Bool)
    (R : Nat) (hR : 0 < R)
    (hcount : ∀ k ∈ (df.map rowKey).dedup, (groupOf df k).length = R) :
    (summarise_results df m incl).metricRows.length = 5 ∧
    (summarise_results df m incl).columns.length =
      (df.map rowKey).dedup.length ∧
    (summarise_results df m incl).metricRows.map Prod.snd =
      [(sortKeys (df.map rowKey).dedup).map (fun k =>
          ((groupOf df k).map (fun r => (r.arrivals : ℚ))).sum / (R : ℚ)),
       (sortKeys (df.map rowKey).dedup).map (fun k =>
          ((groupOf df k).map (fun r => r.mean_wait)).sum / (R : ℚ)),
       (sortKeys (df.map rowKey).dedup).map (fun k =>
          ((groupOf df k).map (fun r => r.mean_service)).sum / (R : ℚ)),
       (sortKeys (df.map rowKey).dedup).map (fun k =>
          ((groupOf df k).map (fun r => r.utilisation)).sum / (R : ℚ)),
       (sortKeys (df.map rowKey).dedup).map (fun k =>
          ((groupOf df k).map (fun r => r.mean_Lq)).sum / (R : ℚ))] := by
  have hcell : ∀ f : Row → ℚ,
      (sortKeys (df.map rowKey).dedup).map
          (fun k => qmean ((groupOf df k).map f)) =
        (sortKeys (df.map rowKey).dedup).map
          (fun k => ((groupOf df k).map f).sum / (R : ℚ)) := by
    intro f
    apply List.map_congr_left
    intro k hk
    have hlen : (groupOf df k).length = R :=
      hcount k ((mem_sortKeys k _).mp hk)
    unfold qmean
    rw [List.length_map, hlen, if_neg (by omega)]
  refine ⟨?_, ?_, ?_⟩
  · by_cases h : (m.getD DEFAULT_METRICS).isEmpty <;>
      simp [summarise_results, h]
  · simp [summarise_results, length_sortKeys]
  · by_cases h : (m.getD DEFAULT_METRICS).isEmpty <;>
      simp only [summarise_results, h, if_pos, if_neg, Bool.false_eq_true,
        not_false_iff, List.map_cons, List.map_nil, List.map_map,
        Function.comp] <;>
      rw [← hcell (fun r => (r.arrivals : ℚ)), ← hcell (fun r => r.mean_wait),
        ← hcell (fun r => r.mean_service), ← hcell (fun r => r.utilisation),
        ← hcell (fun r => r.mean_Lq)]

/-- A single literal replication row. -/
def rowC9 : Row := ⟨0, 1, "A", "R", 1, 2, 3, 4, 5, 6⟩

/-- A one-row frame: one activity, one replication. -/
def dfC9 : List Row := [rowC9]

/-- C9 witness: the shape-and-means theorem at a one-row frame with
R = 1. -/
theorem summary_shape_and_cell_means_witness :
    (summarise_results dfC9 none true).metricRows.length = 5 ∧
    (summarise_results dfC9 none true).columns.length =
      (dfC9.map rowKey).dedup.length ∧
    (summarise_results dfC9 none true).metricRows.map Prod.snd =
      [(sortKeys (dfC9.map rowKey).dedup).map (fun k =>
          ((groupOf dfC9 k).map (fun r => (r.arrivals : ℚ))).sum / ((1 : Nat) : ℚ)),
       (sortKeys (dfC9.map rowKey).dedup).map (fun k =>
          ((groupOf dfC9 k).map (fun r => r.mean_wait)).sum / ((1 : Nat) : ℚ)),
       (sortKeys (dfC9.map rowKey).dedup).map (fun k =>
          ((groupOf dfC9 k).map (fun r => r.mean_service)).sum / ((1 : Nat) : ℚ)),
       (sortKeys (dfC9.map rowKey).dedup).map (fun k =>
          ((groupOf dfC9 k).map (fun r => r.utilisation)).sum / ((1 : Nat) : ℚ)),
       (sortKeys (dfC9.map rowKey).dedup).map (fun k =>
          ((groupOf dfC9 k).map (fun r => r.mean_Lq)).sum / ((1 : Nat) : ℚ))] :=
  summary_shape_and_cell_means dfC9 none true 1 (by decide) (by decide)
